import Mathlib

/-!
# microauth: request gate, start-up validation, certificate loading and generation

A shallow embedding of `microauth.go`, `load.go` and `generate.go`.

Conventions of the embedding:

* A Go `string` / `[]byte` is a finite sequence of bytes, `List (Fin 256)`; the
  conversion `[]byte(s)` is the identity. Source literals are written `lit "..."`
  (all literals of this package are ASCII).
* Calls into packages outside this repository (`net/http`, `crypto/...`,
  `encoding/pem`, `io/ioutil`, `go.step.sm/crypto/pemutil`) are either carried as data
  of the request (`Header.Get`, `FormValue`), recorded as effects (`WriteHeader`, the
  call of the wrapped handler, the call of the server loop), or taken as parameters
  (file reads, PEM decoding, decryption, key pairing, randomness, the clock).
* `crypto/subtle.ConstantTimeCompare` is embedded from the Go standard library, with
  machine integers as naturals reduced modulo the width of their type.
-/

set_option linter.dupNamespace false

namespace microauth

/-! ## Go strings -/

/-- One byte. -/
abbrev Byte := Fin 256

/-- A Go `string` or `[]byte`: a sequence of bytes. -/
abbrev GoString := List Byte

/-- The bytes of an ASCII source literal. -/
def lit (s : String) : GoString := s.data.map (fun c => Fin.ofNat c.toNat)

/-- A Go `error` value, observed through `err.Error()`. -/
structure Error where
  msg : GoString
deriving DecidableEq

/-- Go `errors.New`. -/
def errors.New (text : GoString) : Error := ⟨text⟩

/-! ## crypto/subtle -/

/-- The loop `for i := 0; i < len(x); i++ { v |= x[i] ^ y[i] }` of
`subtle.ConstantTimeCompare`, on slices of equal length; `v` is a `byte`. -/
def ConstantTimeCompare.loop : List Byte → List Byte → Nat → Nat
  | a :: x, b :: y, v => ConstantTimeCompare.loop x y ((v ||| (a.val ^^^ b.val)) % 256)
  | _, _, v => v

/-- Go `subtle.ConstantTimeByteEq`: `int((uint32(x^y) - 1) >> 31)`, the subtraction
wrapping modulo `2^32`. -/
def ConstantTimeByteEq (x y : Nat) : Int :=
  Int.ofNat ((((x ^^^ y) % 2 ^ 32 + 2 ^ 32 - 1) % 2 ^ 32) >>> 31)

/-- Go `subtle.ConstantTimeCompare`: `1` if the two slices have equal contents,
`0` otherwise (in particular whenever the lengths differ). -/
def ConstantTimeCompare (x y : List Byte) : Int :=
  if x.length ≠ y.length then 0
  else ConstantTimeByteEq (ConstantTimeCompare.loop x y 0) 0

/-! ## microauth.go -/

/-- An `http.Handler` value, known only by its identity. -/
structure Handler where
  id : Nat
deriving DecidableEq

/-- Go `http.DefaultServeMux`. -/
def DefaultServeMux : Handler := ⟨0⟩

/-- Go `tls.Certificate`: the DER certificate chain and the private key (`none` is the
nil key of the zero value). -/
structure tls.Certificate where
  Certificate : List (List Byte)
  PrivateKey : Option (List Byte)
deriving DecidableEq

/-- The zero value `tls.Certificate{}`. -/
def tls.Certificate.zero : tls.Certificate := ⟨[], none⟩

/-- Go `Auth`: listener information. `child` and `Certificate` are nil-able. -/
structure Auth where
  child : Option Handler
  Header : GoString
  Certificate : Option tls.Certificate
  ExcludedPaths : List GoString
  Token : GoString
deriving DecidableEq

/-- What `ServeHTTP` reads of an `*http.Request`: `req.Method`, `req.URL.Path`, and the
results of `req.Header.Get(key)` and `req.FormValue(key)` for every key (both return
the empty string when nothing is stored under the key). -/
structure Request where
  Method : GoString
  Path : GoString
  Header : GoString → GoString
  FormValue : GoString → GoString

/-- What a handler does with its `http.ResponseWriter` and with the wrapped handler:
`rw.WriteHeader(statusCode)`, `rw.Write(body)`, and the call `child.ServeHTTP(rw, req)`
on the handler stored in the `child` field (the call panics when that field is nil). -/
inductive Effect where
  | WriteHeader (statusCode : Nat)
  | Write (body : List Byte)
  | childServeHTTP (child : Option Handler) (req : Request)

/-- Go `http.StatusUnauthorized`. -/
def StatusUnauthorized : Nat := 401

/-- The loop `for _, path := range me.ExcludedPaths { if path == reqPath { skipOnce = true; break } }`,
started with the current value of `skipOnce`. -/
def ServeHTTP.rangeExcluded (reqPath : GoString) : List GoString → Bool → Bool
  | [], skipOnce => skipOnce
  | path :: rest, skipOnce =>
    if path = reqPath then true else ServeHTTP.rangeExcluded reqPath rest skipOnce

/-- The candidate token `auth` of `ServeHTTP`: the header value, or the form value
when the header value is empty. -/
def ServeHTTP.auth (me : Auth) (req : Request) : GoString :=
  let auth := req.Header me.Header
  if auth = [] then req.FormValue me.Header else auth

/-- Go `(*Auth).ServeHTTP`: the effects performed, in order. -/
def ServeHTTP (me : Auth) (req : Request) : List Effect :=
  let reqPath := req.Path
  let skipOnce := ServeHTTP.rangeExcluded reqPath me.ExcludedPaths false
  let skipOnce := if req.Method = lit "OPTIONS" then true else skipOnce
  if !skipOnce then
    if ConstantTimeCompare (ServeHTTP.auth me req) me.Token = 0 then
      [Effect.WriteHeader StatusUnauthorized]
    else
      [Effect.childServeHTTP me.child req]
  else
    [Effect.childServeHTTP me.child req]

/-- The request is handed, unmodified, to the wrapped handler, and nothing else is done. -/
def forwards (me : Auth) (req : Request) : Prop :=
  ServeHTTP me req = [Effect.childServeHTTP me.child req]

/-- The request is answered with the unauthorized status alone. -/
def rejects (me : Auth) (req : Request) : Prop :=
  ServeHTTP me req = [Effect.WriteHeader StatusUnauthorized]

/-- A call of the `net/http` server loop: `http.ListenAndServe(addr, handler)` when
`tlsCertificates` is `none`, `(&http.Server{Addr, Handler, TLSConfig}).ListenAndServeTLS("", "")`
with the given `TLSConfig.Certificates` otherwise. -/
structure ServerCall where
  addr : GoString
  handler : Auth
  tlsCertificates : Option (List tls.Certificate)
deriving DecidableEq

/-- How a start-up call ends: it returns an error, leaving the receiver in state `me`
and having reached the server loop or not; or it panics on a nil dereference. -/
inductive StartResult where
  | returned (me : Auth) (listener : Option ServerCall) (err : Error)
  | panicked (me : Auth)
deriving DecidableEq

/-- Go `(*Auth).ListenAndServeTLS`; `serve` is the error the server loop returns. -/
def Auth.ListenAndServeTLS (serve : ServerCall → Error) (me : Auth) (addr token : GoString)
    (h : Option Handler) (excludedPaths : List GoString) : StartResult :=
  if token = [] then
    StartResult.returned me none (errors.New (lit "microauth: token missing"))
  else
    match me.Certificate with
    | none => StartResult.panicked me
    | some certificate =>
      let config := [certificate]
      let me := { me with ExcludedPaths := excludedPaths }
      let me := { me with Token := token }
      let h := match h with
        | none => DefaultServeMux
        | some h => h
      let me := { me with child := some h }
      let server : ServerCall := ⟨addr, me, some config⟩
      StartResult.returned me (some server) (serve server)

/-- Go `(*Auth).ListenAndServe`; `serve` is the error the server loop returns. -/
def Auth.ListenAndServe (serve : ServerCall → Error) (me : Auth) (addr token : GoString)
    (h : Option Handler) (excludedPaths : List GoString) : StartResult :=
  if token = [] then
    StartResult.returned me none (errors.New (lit "microauth: token missing"))
  else
    let me := { me with ExcludedPaths := excludedPaths }
    let me := { me with Token := token }
    let h := match h with
      | none => DefaultServeMux
      | some h => h
    let me := { me with child := some h }
    let server : ServerCall := ⟨addr, me, none⟩
    StartResult.returned me (some server) (serve server)

/-! ## load.go -/

/-- Go `pem.Block`. -/
structure pem.Block where
  Typ : GoString
  Headers : List (GoString × GoString)
  Bytes : List Byte
deriving DecidableEq

/-- The calls `Load` makes outside this repository.

* `ReadFile` is `ioutil.ReadFile`.
* `Decode` is the block returned by `pem.Decode`, `none` being the nil block returned
  when no PEM data is found.
* `DecryptPEMBlock` is `pemutil.DecryptPEMBlock` on a non-nil block.
* `X509KeyPair` is `tls.X509KeyPair`, which returns a certificate and an error. -/
structure LoadEnv where
  ReadFile : GoString → Except Error (List Byte)
  Decode : List Byte → Option pem.Block
  DecryptPEMBlock : pem.Block → List Byte → Except Error (List Byte)
  X509KeyPair : List Byte → List Byte → tls.Certificate × Option Error

/-- How `Load` ends: it returns a certificate and an error (`none` is the nil error),
or it panics on a nil pointer dereference. -/
inductive LoadResult where
  | returned (crt : tls.Certificate) (err : Option Error)
  | panicked
deriving DecidableEq

/-- Go `Load`. The block `temp` returned by `pem.Decode` is handed to
`pemutil.DecryptPEMBlock` unchecked; that function starts by reading
`block.Headers["Proc-Type"]`, so a nil `temp` is a nil pointer dereference. -/
def Load (env : LoadEnv) (certFile keyFile password : GoString) : LoadResult :=
  match env.ReadFile certFile with
  | Except.error err => LoadResult.returned tls.Certificate.zero (some err)
  | Except.ok certPEMBlock =>
    match env.ReadFile keyFile with
    | Except.error err => LoadResult.returned tls.Certificate.zero (some err)
    | Except.ok rawKeyPEMBlock =>
      match env.Decode rawKeyPEMBlock with
      | none => LoadResult.panicked
      | some temp =>
        match env.DecryptPEMBlock temp password with
        | Except.error err =>
          if err.msg = lit "unsupported encrypted PEM" then
            let keyPEMBlock := rawKeyPEMBlock
            LoadResult.returned (env.X509KeyPair certPEMBlock keyPEMBlock).1
              (env.X509KeyPair certPEMBlock keyPEMBlock).2
          else
            LoadResult.returned tls.Certificate.zero (some err)
        | Except.ok keyPEMBlock =>
          LoadResult.returned (env.X509KeyPair certPEMBlock keyPEMBlock).1
            (env.X509KeyPair certPEMBlock keyPEMBlock).2

/-! ## generate.go -/

/-- Go `time.Duration`: a signed 64-bit count of nanoseconds. -/
abbrev time.Duration := Int

/-- Reduction of an integer to the range of `int64`. -/
def wrapInt64 (n : Int) : Int := (n + 2 ^ 63) % 2 ^ 64 - 2 ^ 63

/-- Go `time.Nanosecond`. -/
def time.Nanosecond : time.Duration := 1
/-- Go `time.Microsecond`. -/
def time.Microsecond : time.Duration := 1000 * time.Nanosecond
/-- Go `time.Millisecond`. -/
def time.Millisecond : time.Duration := 1000 * time.Microsecond
/-- Go `time.Second`. -/
def time.Second : time.Duration := 1000 * time.Millisecond
/-- Go `time.Minute`. -/
def time.Minute : time.Duration := 60 * time.Second
/-- Go `time.Hour`. -/
def time.Hour : time.Duration := 60 * time.Minute

/-- Go `time.Time`, as the instant it denotes: nanoseconds since the Unix epoch. -/
abbrev time.Time := Int

/-- Go `Time.Add`. -/
def time.Time.Add (t : time.Time) (d : time.Duration) : time.Time := t + d

/-- Go `pkix.Name`, the fields `Generate` sets. -/
structure pkix.Name where
  CommonName : GoString
  Organization : List GoString
deriving DecidableEq

/-- Go `x509.Certificate`, the fields `Generate` sets in its template. -/
structure x509.Certificate where
  DNSNames : List GoString
  SerialNumber : Nat
  Subject : pkix.Name
  NotBefore : time.Time
  NotAfter : time.Time
  KeyUsage : Nat
  ExtKeyUsage : List Nat
  BasicConstraintsValid : Bool
deriving DecidableEq

/-- Go `x509.KeyUsageDigitalSignature` (`1 << 0`). -/
def x509.KeyUsageDigitalSignature : Nat := 1
/-- Go `x509.KeyUsageKeyEncipherment` (`1 << 2`). -/
def x509.KeyUsageKeyEncipherment : Nat := 4
/-- Go `x509.ExtKeyUsageServerAuth`. -/
def x509.ExtKeyUsageServerAuth : Nat := 1

/-- Go `rsa.PublicKey`. -/
structure rsa.PublicKey where
  N : Nat
  E : Nat
deriving DecidableEq

/-- Go `rsa.PrivateKey`. -/
structure rsa.PrivateKey where
  PublicKey : rsa.PublicKey
  D : Nat
deriving DecidableEq

/-- The calls `Generate` makes outside this repository.

* `GenerateKey bits` is `rsa.GenerateKey(rand.Reader, bits)`.
* `Now` is `time.Now()`.
* `RandInt max` is `rand.Int(rand.Reader, max)`.
* `CreateCertificate template parent pub priv` is `x509.CreateCertificate(rand.Reader, ...)`.
* `MarshalPKCS1PrivateKey`, `EncodeToMemory` and `X509KeyPair` are the functions of
  those names in `crypto/x509`, `encoding/pem` and `crypto/tls`. -/
structure GenEnv where
  GenerateKey : Nat → Except Error rsa.PrivateKey
  Now : time.Time
  RandInt : Nat → Except Error Nat
  CreateCertificate :
    x509.Certificate → x509.Certificate → rsa.PublicKey → rsa.PrivateKey → Except Error (List Byte)
  MarshalPKCS1PrivateKey : rsa.PrivateKey → List Byte
  EncodeToMemory : pem.Block → List Byte
  X509KeyPair : List Byte → List Byte → tls.Certificate × Option Error

/-- The validity period added to `notBefore`: the constant `365 * 24 * 100 * time.Hour`,
held in an `int64`. -/
def Generate.validity : time.Duration := wrapInt64 (365 * 24 * 100 * time.Hour)

/-- The certificate template `Generate` builds for `host`, from the clock reading
`notBefore` and the serial number drawn. -/
def Generate.template (host : GoString) (notBefore : time.Time) (serialNumber : Nat) :
    x509.Certificate :=
  let notAfter := notBefore.Add Generate.validity
  { DNSNames := [host]
    SerialNumber := serialNumber
    Subject := { CommonName := host, Organization := [lit "Microbox Acme Co"] }
    NotBefore := notBefore
    NotAfter := notAfter
    KeyUsage := x509.KeyUsageKeyEncipherment ||| x509.KeyUsageDigitalSignature
    ExtKeyUsage := [x509.ExtKeyUsageServerAuth]
    BasicConstraintsValid := true }

/-- Go `Generate`: the certificate pointer (`none` is nil) and the error. -/
def Generate (env : GenEnv) (host : GoString) : Option tls.Certificate × Option Error :=
  match env.GenerateKey 2048 with
  | Except.error err => (none, some err)
  | Except.ok priv =>
    let notBefore := env.Now
    let serialNumberLimit := 1 <<< 128
    match env.RandInt serialNumberLimit with
    | Except.error err => (none, some err)
    | Except.ok serialNumber =>
      let template := Generate.template host notBefore serialNumber
      match env.CreateCertificate template template priv.PublicKey priv with
      | Except.error err => (none, some err)
      | Except.ok derBytes =>
        let cert := env.EncodeToMemory ⟨lit "CERTIFICATE", [], derBytes⟩
        let key := env.EncodeToMemory
          ⟨lit "RSA PRIVATE KEY", [], env.MarshalPKCS1PrivateKey priv⟩
        (some (env.X509KeyPair cert key).1, (env.X509KeyPair cert key).2)

/-! ## The Gregorian calendar, for the length of a century -/

/-- Leap years of the Gregorian calendar. -/
def isLeapYear (y : Nat) : Bool :=
  y % 4 = 0 && (y % 100 != 0 || y % 400 = 0)

/-- Days of the calendar year `y`. -/
def daysInYear (y : Nat) : Nat := if isLeapYear y then 366 else 365

/-- Days of the `n` consecutive calendar years `y, y+1, ..., y+n-1`. -/
def daysInYears (y : Nat) : Nat → Nat
  | 0 => 0
  | n + 1 => daysInYears y n + daysInYear (y + n)

/-- Nanoseconds of one day. -/
def nanosPerDay : Int := 24 * time.Hour

/-! ## Concrete configurations and requests -/

/-- A gate configured with the token `abc123` and the excluded path `/health`. -/
def scenarioAuth : Auth :=
  { child := some ⟨1⟩
    Header := lit "X-MICROBOX-TOKEN"
    Certificate := none
    ExcludedPaths := [lit "/health"]
    Token := lit "abc123" }

/-- An `Auth` that was never started: the token and the child are unset. -/
def unconfiguredAuth : Auth :=
  { child := none
    Header := lit "X-MICROBOX-TOKEN"
    Certificate := none
    ExcludedPaths := []
    Token := [] }

/-- The request `method path`, carrying `header` under the header name
`X-MICROBOX-TOKEN` and `form` as the form value of that name. -/
def request (method path header form : GoString) : Request :=
  { Method := method
    Path := path
    Header := fun key => if key = lit "X-MICROBOX-TOKEN" then header else []
    FormValue := fun key => if key = lit "X-MICROBOX-TOKEN" then form else [] }

/-- A stand-in for the file system and the libraries `Load` calls: four files, of which
`plain.key` decodes to a block without encryption headers, `enc.key` to a block marked
`Proc-Type: 4,ENCRYPTED` that decrypts under the password `secret`, and `empty.key`
holds no PEM data; the pairing accepts the plain PEM key only. -/
def exampleLoadEnv : LoadEnv :=
  { ReadFile := fun name =>
      if name = lit "cert.pem" then Except.ok (lit "CERT PEM")
      else if name = lit "plain.key" then Except.ok (lit "PLAIN KEY PEM")
      else if name = lit "enc.key" then Except.ok (lit "ENCRYPTED KEY PEM")
      else if name = lit "empty.key" then Except.ok []
      else Except.error ⟨lit "no such file or directory"⟩
    Decode := fun data =>
      if data = lit "PLAIN KEY PEM" then some ⟨lit "RSA PRIVATE KEY", [], lit "KEY DER"⟩
      else if data = lit "ENCRYPTED KEY PEM" then
        some ⟨lit "RSA PRIVATE KEY", [(lit "Proc-Type", lit "4,ENCRYPTED")], lit "CIPHERTEXT"⟩
      else none
    DecryptPEMBlock := fun block password =>
      if (lit "Proc-Type", lit "4,ENCRYPTED") ∈ block.Headers then
        if password = lit "secret" then Except.ok (lit "KEY DER")
        else Except.error ⟨lit "x509: decryption password incorrect"⟩
      else Except.error ⟨lit "unsupported encrypted PEM"⟩
    X509KeyPair := fun certPEMBlock keyPEMBlock =>
      if certPEMBlock = lit "CERT PEM" ∧ keyPEMBlock = lit "PLAIN KEY PEM" then
        (⟨[lit "CERT DER"], some (lit "KEY DER")⟩, none)
      else
        (tls.Certificate.zero, some ⟨lit "tls: failed to find any PEM data in key input"⟩) }

/-- A stand-in for the clock, the random source and the libraries `Generate` calls: a
fixed small key, the clock reading `1700000000000000000` (14 November 2023), the serial
number 42, and encodings that keep their input visible. -/
def exampleGenEnv : GenEnv :=
  { GenerateKey := fun _ => Except.ok ⟨⟨3233, 17⟩, 413⟩
    Now := 1700000000000000000
    RandInt := fun _ => Except.ok 42
    CreateCertificate := fun template _ _ _ => Except.ok template.Subject.CommonName
    MarshalPKCS1PrivateKey := fun _ => lit "KEY DER"
    EncodeToMemory := fun block => block.Typ ++ block.Bytes
    X509KeyPair := fun certPEMBlock keyPEMBlock => (⟨[certPEMBlock], some keyPEMBlock⟩, none) }

/-! ## Lemmas on the comparison -/

theorem lor_eq_zero_iff (a b : Nat) : a ||| b = 0 ↔ a = 0 ∧ b = 0 := by
  constructor
  · intro h
    have hbit : ∀ i, (a.testBit i || b.testBit i) = false := by
      intro i
      rw [← Nat.testBit_or, h, Nat.zero_testBit]
    constructor
    · apply Nat.eq_of_testBit_eq
      intro i
      have := hbit i
      simp only [Bool.or_eq_false_iff] at this
      simp [this.1]
    · apply Nat.eq_of_testBit_eq
      intro i
      have := hbit i
      simp only [Bool.or_eq_false_iff] at this
      simp [this.2]
  · rintro ⟨rfl, rfl⟩
    simp

theorem loop_step_lt (v : Nat) (a b : Byte) : (v ||| (a.val ^^^ b.val)) % 256 < 256 :=
  Nat.mod_lt _ (by decide)

theorem loop_step_eq_zero_iff (v : Nat) (hv : v < 256) (a b : Byte) :
    (v ||| (a.val ^^^ b.val)) % 256 = 0 ↔ v = 0 ∧ a = b := by
  have hx : a.val ^^^ b.val < 256 := Nat.xor_lt_two_pow (n := 8) a.isLt b.isLt
  have ho : v ||| (a.val ^^^ b.val) < 256 := Nat.or_lt_two_pow (n := 8) hv hx
  rw [Nat.mod_eq_of_lt ho, lor_eq_zero_iff, Nat.xor_eq_zero]
  constructor
  · rintro ⟨h1, h2⟩
    exact ⟨h1, Fin.ext h2⟩
  · rintro ⟨h1, h2⟩
    exact ⟨h1, congrArg Fin.val h2⟩

theorem loop_lt (x : List Byte) : ∀ (y : List Byte) (v : Nat), v < 256 →
    ConstantTimeCompare.loop x y v < 256 := by
  induction x with
  | nil => intro y v hv; simpa [ConstantTimeCompare.loop] using hv
  | cons a x ih =>
    intro y v hv
    cases y with
    | nil => simpa [ConstantTimeCompare.loop] using hv
    | cons b y =>
      simp only [ConstantTimeCompare.loop]
      exact ih y _ (loop_step_lt v a b)

theorem loop_eq_zero_iff (x : List Byte) : ∀ (y : List Byte) (v : Nat), v < 256 →
    x.length = y.length → (ConstantTimeCompare.loop x y v = 0 ↔ v = 0 ∧ x = y) := by
  induction x with
  | nil =>
    intro y v _ hlen
    cases y with
    | nil => simp [ConstantTimeCompare.loop]
    | cons b y => simp at hlen
  | cons a x ih =>
    intro y v hv hlen
    cases y with
    | nil => simp at hlen
    | cons b y =>
      simp only [List.length_cons, Nat.add_right_cancel_iff] at hlen
      simp only [ConstantTimeCompare.loop]
      rw [ih y _ (loop_step_lt v a b) hlen, loop_step_eq_zero_iff v hv a b]
      constructor
      · rintro ⟨⟨h1, h2⟩, h3⟩
        exact ⟨h1, by rw [h2, h3]⟩
      · rintro ⟨h1, h2⟩
        injection h2 with h2 h3
        exact ⟨⟨h1, h2⟩, h3⟩

theorem ConstantTimeByteEq_zero (v : Nat) (hv : v < 256) :
    ConstantTimeByteEq v 0 = if v = 0 then 1 else 0 := by
  unfold ConstantTimeByteEq
  simp only [Nat.xor_zero, Nat.shiftRight_eq_div_pow]
  split
  · next h => subst h; decide
  · next h =>
    have : (v % 2 ^ 32 + 2 ^ 32 - 1) % 2 ^ 32 / 2 ^ 31 = 0 := by omega
    rw [this]; rfl

theorem ConstantTimeCompare_eq (x y : List Byte) :
    ConstantTimeCompare x y = if x = y then 1 else 0 := by
  unfold ConstantTimeCompare
  by_cases hlen : x.length = y.length
  · rw [if_neg (by simpa using hlen), ConstantTimeByteEq_zero _ (loop_lt x y 0 (by decide))]
    have := loop_eq_zero_iff x y 0 (by decide) hlen
    by_cases hxy : x = y
    · rw [if_pos hxy, if_pos (this.2 ⟨rfl, hxy⟩)]
    · rw [if_neg hxy, if_neg (fun h => hxy (this.1 h).2)]
  · rw [if_pos hlen, if_neg (fun h => hlen (by rw [h]))]

theorem ConstantTimeCompare_eq_zero_iff (x y : List Byte) :
    ConstantTimeCompare x y = 0 ↔ x ≠ y := by
  rw [ConstantTimeCompare_eq]
  by_cases h : x = y <;> simp [h]

theorem rangeExcluded_eq (reqPath : GoString) (paths : List GoString) (skipOnce : Bool) :
    ServeHTTP.rangeExcluded reqPath paths skipOnce = (decide (reqPath ∈ paths) || skipOnce) := by
  induction paths with
  | nil => simp [ServeHTTP.rangeExcluded]
  | cons path rest ih =>
    simp only [ServeHTTP.rangeExcluded, List.mem_cons]
    by_cases h : path = reqPath
    · simp [h]
    · have h2 : ¬ reqPath = path := fun e => h e.symm
      simp [h, h2, ih]

/-- The decision of `ServeHTTP`, in closed form. -/
theorem ServeHTTP_eq (me : Auth) (req : Request) :
    ServeHTTP me req =
      if req.Path ∈ me.ExcludedPaths ∨ req.Method = lit "OPTIONS" ∨
          ServeHTTP.auth me req = me.Token then
        [Effect.childServeHTTP me.child req]
      else [Effect.WriteHeader StatusUnauthorized] := by
  unfold ServeHTTP
  simp only [rangeExcluded_eq, ConstantTimeCompare_eq_zero_iff, Bool.or_false]
  by_cases h1 : req.Path ∈ me.ExcludedPaths <;> by_cases h2 : req.Method = lit "OPTIONS" <;>
    by_cases h3 : ServeHTTP.auth me req = me.Token <;> simp [h1, h2, h3]


/-! ## Lemmas on the calendar -/

theorem daysInYear_eq (k : Nat) :
    daysInYear k + (k + 3) / 4 + (k + 399) / 400 + (k + 100) / 100 =
      365 + (k + 4) / 4 + (k + 400) / 400 + (k + 99) / 100 := by
  unfold daysInYear isLeapYear
  by_cases h4 : k % 4 = 0 <;> by_cases h100 : k % 100 = 0 <;> by_cases h400 : k % 400 = 0 <;>
    simp [h4, h100, h400] <;> omega

theorem daysInYears_succ_eq (y n : Nat)
    (ih : daysInYears y n + (y + 3) / 4 + (y + 399) / 400 + (y + n + 99) / 100 =
      365 * n + (y + n + 3) / 4 + (y + n + 399) / 400 + (y + 99) / 100) :
    daysInYears y (n + 1) + (y + 3) / 4 + (y + 399) / 400 + (y + (n + 1) + 99) / 100 =
      365 * (n + 1) + (y + (n + 1) + 3) / 4 + (y + (n + 1) + 399) / 400 + (y + 99) / 100 := by
  have h := daysInYear_eq (y + n)
  simp only [daysInYears]
  have e1 : y + (n + 1) + 3 = y + n + 4 := rfl
  have e2 : y + (n + 1) + 399 = y + n + 400 := rfl
  have e3 : y + (n + 1) + 99 = y + n + 100 := rfl
  simp only [e1, e2, e3]
  generalize daysInYears y n = D at *
  generalize daysInYear (y + n) = d at *
  generalize (y + n + 4) / 4 = a1 at *
  generalize (y + n + 400) / 400 = a2 at *
  generalize (y + n + 100) / 100 = a3 at *
  generalize (y + n + 3) / 4 = b1 at *
  generalize (y + n + 399) / 400 = b2 at *
  generalize (y + n + 99) / 100 = b3 at *
  generalize (y + 3) / 4 = c1 at *
  generalize (y + 399) / 400 = c2 at *
  generalize (y + 99) / 100 = c3 at *
  omega

theorem daysInYears_eq (y n : Nat) :
    daysInYears y n + (y + 3) / 4 + (y + 399) / 400 + (y + n + 99) / 100 =
      365 * n + (y + n + 3) / 4 + (y + n + 399) / 400 + (y + 99) / 100 := by
  induction n with
  | zero => simp [daysInYears]
  | succ n ih => exact daysInYears_succ_eq y n ih

/-- Any 100 consecutive calendar years hold 24 or 25 leap days. -/
theorem daysInYears_century (y : Nat) :
    36524 ≤ daysInYears y 100 ∧ daysInYears y 100 ≤ 36525 := by
  have h := daysInYears_eq y 100
  have h4 : (y + 100 + 3) / 4 = (y + 3) / 4 + 25 := by omega
  have h100 : (y + 100 + 99) / 100 = (y + 99) / 100 + 1 := by omega
  have h400 : (y + 399) / 400 ≤ (y + 100 + 399) / 400 ∧
      (y + 100 + 399) / 400 ≤ (y + 399) / 400 + 1 := by omega
  rw [h4, h100] at h
  generalize daysInYears y 100 = D at *
  generalize (y + 100 + 399) / 400 = a at *
  generalize (y + 399) / 400 = b at *
  generalize (y + 3) / 4 = c at *
  generalize (y + 99) / 100 = d at *
  omega

theorem validity_eq : Generate.validity = 3153600000000000000 := by
  decide

theorem nanosPerDay_eq : nanosPerDay = 86400000000000 := by
  decide

theorem hundred_years_of_hours_eq :
    365 * 24 * 100 * time.Hour = (3153600000000000000 : Int) := by
  decide

/-! ## The request gate -/

/-- C1 (amended): for a request whose method is not `OPTIONS` and whose path is no
entry of `ExcludedPaths`, `ServeHTTP` forwards to the wrapped handler if and only if the
header value under `Header` is non-empty and equals `Token`, or the header value is
empty and the form value under `Header` equals `Token`; in every other case it rejects
with 401. In particular a non-empty header value that differs from `Token` rejects,
whatever the form value. -/
theorem ServeHTTP_forwards_iff (me : Auth) (req : Request)
    (hmethod : req.Method ≠ lit "OPTIONS") (hpath : req.Path ∉ me.ExcludedPaths) :
    (forwards me req ↔
      ((req.Header me.Header ≠ [] ∧ req.Header me.Header = me.Token) ∨
        (req.Header me.Header = [] ∧ req.FormValue me.Header = me.Token))) ∧
    (¬ forwards me req → rejects me req) ∧
    (req.Header me.Header ≠ [] → req.Header me.Header ≠ me.Token → rejects me req) := by
  have key : ServeHTTP me req =
      if ServeHTTP.auth me req = me.Token then [Effect.childServeHTTP me.child req]
      else [Effect.WriteHeader StatusUnauthorized] := by
    rw [ServeHTTP_eq]; simp [hmethod, hpath]
  have hauth : ServeHTTP.auth me req = me.Token ↔
      ((req.Header me.Header ≠ [] ∧ req.Header me.Header = me.Token) ∨
        (req.Header me.Header = [] ∧ req.FormValue me.Header = me.Token)) := by
    unfold ServeHTTP.auth
    by_cases h : req.Header me.Header = [] <;> simp [h]
  unfold forwards rejects
  rw [key, ← hauth]
  by_cases h : ServeHTTP.auth me req = me.Token
  · refine ⟨by simp [h], by simp [h], ?_⟩
    intro hne hne2
    exfalso
    apply hne2
    rw [← h]
    unfold ServeHTTP.auth
    simp [hne]
  · simp [h]

/-- Witness of C1 (amended): with token `abc123`, `GET /status` carrying the header
`abc123` is forwarded, and carrying the header `wrong` with the form value `abc123` is
rejected. -/
theorem ServeHTTP_forwards_iff_witness :
    (lit "GET" ≠ lit "OPTIONS" ∧ lit "/status" ∉ scenarioAuth.ExcludedPaths) ∧
      forwards scenarioAuth (request (lit "GET") (lit "/status") (lit "abc123") []) ∧
      rejects scenarioAuth (request (lit "GET") (lit "/status") (lit "wrong") (lit "abc123")) :=
  ⟨⟨by decide, by decide⟩,
    (ServeHTTP_forwards_iff scenarioAuth (request (lit "GET") (lit "/status") (lit "abc123") [])
      (by decide) (by decide)).1.2 (Or.inl ⟨by decide, by decide⟩),
    (ServeHTTP_forwards_iff scenarioAuth
      (request (lit "GET") (lit "/status") (lit "wrong") (lit "abc123"))
      (by decide) (by decide)).2.2 (by decide) (by decide)⟩

/-- Counterexample to C1 as written: with an empty `Token`, a `GET /status` request
without the header and with form value `x` has a header value equal to `Token`, yet it
is rejected; so "header value equals Token" does not imply forwarding. -/
theorem ServeHTTP_header_eq_token_not_sufficient :
    ¬ ∀ (me : Auth) (req : Request),
      req.Method ≠ lit "OPTIONS" → req.Path ∉ me.ExcludedPaths →
      (forwards me req ↔
        (req.Header me.Header = me.Token ∨
          (req.Header me.Header = [] ∧ req.FormValue me.Header = me.Token))) := by
  intro h
  have h1 := (h unconfiguredAuth (request (lit "GET") (lit "/status") [] (lit "x"))
    (by decide) (by decide)).2 (Or.inl rfl)
  have h2 : ServeHTTP unconfiguredAuth (request (lit "GET") (lit "/status") [] (lit "x")) =
      [Effect.WriteHeader StatusUnauthorized] := rfl
  unfold forwards at h1
  rw [h2] at h1
  simp at h1

/-- C2: a request whose path equals some entry of `ExcludedPaths` is forwarded to the
wrapped handler, whatever its method, header value and form value. -/
theorem ServeHTTP_excluded_path_forwards (me : Auth) (req : Request)
    (hpath : req.Path ∈ me.ExcludedPaths) : forwards me req := by
  unfold forwards
  rw [ServeHTTP_eq, if_pos (Or.inl hpath)]

/-- Witness of C2: `GET /health` without any token is forwarded when `/health` is
excluded. -/
theorem ServeHTTP_excluded_path_forwards_witness :
    lit "/health" ∈ scenarioAuth.ExcludedPaths ∧
      forwards scenarioAuth (request (lit "GET") (lit "/health") [] []) :=
  ⟨by decide,
    ServeHTTP_excluded_path_forwards scenarioAuth (request (lit "GET") (lit "/health") [] [])
      (by decide)⟩

/-- C3: a request whose method is `OPTIONS` is forwarded to the wrapped handler,
whatever its path, the excluded paths, the header value and the form value. -/
theorem ServeHTTP_options_forwards (me : Auth) (req : Request)
    (hmethod : req.Method = lit "OPTIONS") : forwards me req := by
  unfold forwards
  rw [ServeHTTP_eq, if_pos (Or.inr (Or.inl hmethod))]

/-- Witness of C3: `OPTIONS /status` without any token is forwarded. -/
theorem ServeHTTP_options_forwards_witness :
    lit "OPTIONS" = lit "OPTIONS" ∧
      forwards scenarioAuth (request (lit "OPTIONS") (lit "/status") [] []) :=
  ⟨rfl,
    ServeHTTP_options_forwards scenarioAuth (request (lit "OPTIONS") (lit "/status") [] []) rfl⟩

/-- C4: `ListenAndServe` and `ListenAndServeTLS` called with the empty token return the
error `microauth: token missing`, reach no server loop, and leave the receiver (its
`Token`, `ExcludedPaths` and `child` included) as it was. -/
theorem ListenAndServe_token_missing (serve : ServerCall → Error) (me : Auth)
    (addr : GoString) (h : Option Handler) (excludedPaths : List GoString) :
    Auth.ListenAndServe serve me addr [] h excludedPaths =
        StartResult.returned me none (errors.New (lit "microauth: token missing")) ∧
      Auth.ListenAndServeTLS serve me addr [] h excludedPaths =
        StartResult.returned me none (errors.New (lit "microauth: token missing")) := by
  constructor
  · simp [Auth.ListenAndServe]
  · simp [Auth.ListenAndServeTLS]

/-- C5: when the token comparison fails on a request that is neither excluded nor
`OPTIONS`, the effects of `ServeHTTP` are exactly one `WriteHeader(401)`: the wrapped
handler is not called and no body is written; and any two rejected requests get the
same effects, so nothing of the submitted token shows in the response. -/
theorem ServeHTTP_reject_response (me : Auth) (req req' : Request)
    (hmethod : req.Method ≠ lit "OPTIONS") (hpath : req.Path ∉ me.ExcludedPaths)
    (hcmp : ConstantTimeCompare (ServeHTTP.auth me req) me.Token = 0)
    (hmethod' : req'.Method ≠ lit "OPTIONS") (hpath' : req'.Path ∉ me.ExcludedPaths)
    (hcmp' : ConstantTimeCompare (ServeHTTP.auth me req') me.Token = 0) :
    ServeHTTP me req = [Effect.WriteHeader 401] ∧
      (∀ child r, Effect.childServeHTTP child r ∉ ServeHTTP me req) ∧
      (∀ body, Effect.Write body ∉ ServeHTTP me req) ∧
      ServeHTTP me req' = ServeHTTP me req := by
  have hrej : ∀ r : Request, r.Method ≠ lit "OPTIONS" → r.Path ∉ me.ExcludedPaths →
      ConstantTimeCompare (ServeHTTP.auth me r) me.Token = 0 →
      ServeHTTP me r = [Effect.WriteHeader 401] := by
    intro r hm hp hc
    rw [ConstantTimeCompare_eq_zero_iff] at hc
    rw [ServeHTTP_eq]
    simp [hm, hp, hc, StatusUnauthorized]
  rw [hrej req hmethod hpath hcmp, hrej req' hmethod' hpath' hcmp']
  simp

/-- Witness of C5: `GET /status` with the header `wrong` and with the header `other`
are both answered by one `WriteHeader(401)`. -/
theorem ServeHTTP_reject_response_witness :
    ServeHTTP scenarioAuth (request (lit "GET") (lit "/status") (lit "wrong") []) =
        [Effect.WriteHeader 401] ∧
      ServeHTTP scenarioAuth (request (lit "GET") (lit "/status") (lit "other") []) =
        ServeHTTP scenarioAuth (request (lit "GET") (lit "/status") (lit "wrong") []) :=
  have h := ServeHTTP_reject_response scenarioAuth
    (request (lit "GET") (lit "/status") (lit "wrong") [])
    (request (lit "GET") (lit "/status") (lit "other") [])
    (by decide) (by decide) (by decide) (by decide) (by decide) (by decide)
  ⟨h.1, h.2.2.2⟩

/-! ## Certificate generation -/

/-- The validity window of the template built from the clock reading `now`. -/
theorem template_window (host : GoString) (now : time.Time) (serialNumber : Nat) :
    (Generate.template host now serialNumber).NotBefore = now ∧
      (Generate.template host now serialNumber).NotAfter = now + 36500 * nanosPerDay ∧
      Generate.validity = 365 * 24 * 100 * time.Hour ∧
      (-(2 : Int) ^ 63 ≤ 365 * 24 * 100 * time.Hour ∧ 365 * 24 * 100 * time.Hour < 2 ^ 63) ∧
      (∀ y : Nat,
        0 < (daysInYears y 100 : Int) * nanosPerDay - Generate.validity ∧
          (daysInYears y 100 : Int) * nanosPerDay - Generate.validity < 28 * nanosPerDay) ∧
      (Generate.template host now serialNumber).NotBefore ≤ now ∧
      now ≤ (Generate.template host now serialNumber).NotAfter := by
  have hafter : (Generate.template host now serialNumber).NotAfter = now + Generate.validity := rfl
  have hbefore : (Generate.template host now serialNumber).NotBefore = now := rfl
  rw [hafter, hbefore, validity_eq, nanosPerDay_eq, hundred_years_of_hours_eq]
  refine ⟨rfl, by norm_num, rfl, by norm_num, ?_, le_refl _,
    Int.le_add_of_nonneg_right (by decide)⟩
  intro y
  have h := daysInYears_century y
  have h1 : (36524 : Int) ≤ (daysInYears y 100 : Int) := by exact_mod_cast h.1
  have h2 : (daysInYears y 100 : Int) ≤ 36525 := by exact_mod_cast h.2
  constructor <;> omega

/-- C9: whenever key generation and the serial number draw succeed, `Generate` hands to
`x509.CreateCertificate`, as template and as parent, a certificate `template` whose
`NotBefore` is the clock reading `time.Now()` of that call and whose `NotAfter` is 36,500
days later, and the result of `Generate` is what follows from that call. The constant
`365 * 24 * 100 * time.Hour` lies in the range of `int64`, so it is held without
wrapping; its distance to the length of any 100 consecutive calendar years is positive
and below 28 days, the shortest month; and the issuance time lies between `NotBefore`
and `NotAfter`. -/
theorem Generate_template_validity (env : GenEnv) (host : GoString) (priv : rsa.PrivateKey)
    (serialNumber : Nat)
    (hkey : env.GenerateKey 2048 = Except.ok priv)
    (hserial : env.RandInt (2 ^ 128) = Except.ok serialNumber) :
    ∃ template : x509.Certificate,
      Generate env host =
          (match env.CreateCertificate template template priv.PublicKey priv with
          | Except.error err => (none, some err)
          | Except.ok derBytes =>
            (some (env.X509KeyPair (env.EncodeToMemory ⟨lit "CERTIFICATE", [], derBytes⟩)
                (env.EncodeToMemory
                  ⟨lit "RSA PRIVATE KEY", [], env.MarshalPKCS1PrivateKey priv⟩)).1,
              (env.X509KeyPair (env.EncodeToMemory ⟨lit "CERTIFICATE", [], derBytes⟩)
                (env.EncodeToMemory
                  ⟨lit "RSA PRIVATE KEY", [], env.MarshalPKCS1PrivateKey priv⟩)).2)) ∧
        template.DNSNames = [host] ∧
        template.SerialNumber = serialNumber ∧
        template.NotBefore = env.Now ∧
        template.NotAfter = env.Now + 36500 * nanosPerDay ∧
        template.NotAfter = env.Now + 365 * 24 * 100 * time.Hour ∧
        Generate.validity = 365 * 24 * 100 * time.Hour ∧
        (-(2 : Int) ^ 63 ≤ 365 * 24 * 100 * time.Hour ∧
          365 * 24 * 100 * time.Hour < 2 ^ 63) ∧
        (∀ y : Nat,
          0 < (daysInYears y 100 : Int) * nanosPerDay - (template.NotAfter - template.NotBefore) ∧
            (daysInYears y 100 : Int) * nanosPerDay - (template.NotAfter - template.NotBefore) <
              28 * nanosPerDay) ∧
        template.NotBefore ≤ env.Now ∧
        env.Now ≤ template.NotAfter := by
  have h128 : (1 <<< 128 : Nat) = 2 ^ 128 := by decide
  have hw := template_window host env.Now serialNumber
  refine ⟨Generate.template host env.Now serialNumber, ?_, rfl, rfl, hw.1, hw.2.1, ?_,
    hw.2.2.1, hw.2.2.2.1, ?_, hw.2.2.2.2.2.1, hw.2.2.2.2.2.2⟩
  · unfold Generate
    simp only [hkey, h128, hserial]
  · rw [← hw.2.2.1]
    rfl
  · intro y
    have hspan : (Generate.template host env.Now serialNumber).NotAfter -
        (Generate.template host env.Now serialNumber).NotBefore = Generate.validity := by
      show env.Now + Generate.validity - env.Now = Generate.validity
      exact add_sub_cancel_left env.Now Generate.validity
    rw [hspan]
    exact hw.2.2.2.2.1 y

/-- Witness of C9: with the clock reading `1700000000000000000` and the serial number
42, `Generate` for the host `microbox.cloud` succeeds from a template valid from that
instant on. -/
theorem Generate_template_validity_witness :
    (exampleGenEnv.GenerateKey 2048 = Except.ok ⟨⟨3233, 17⟩, 413⟩ ∧
        exampleGenEnv.RandInt (2 ^ 128) = Except.ok 42) ∧
      ∃ template : x509.Certificate,
        template.NotBefore = 1700000000000000000 ∧
          template.NotAfter = 1700000000000000000 + 36500 * nanosPerDay ∧
          (Generate exampleGenEnv (lit "microbox.cloud")).2 = none :=
  ⟨⟨rfl, rfl⟩,
    (Generate_template_validity exampleGenEnv (lit "microbox.cloud") ⟨⟨3233, 17⟩, 413⟩ 42
      rfl rfl).elim
      (fun template h => ⟨template, h.2.2.2.1, h.2.2.2.2.1, by rw [h.1]; rfl⟩)⟩

/-! ## Certificate loading -/

/-- C7: when both files are read, the key file decodes to a PEM block and decrypting
that block fails, then: if the error reads `unsupported encrypted PEM` (the block is not
an encrypted one), `Load` returns what the pairing of the certificate bytes with the raw
key file bytes returns; if the error reads anything else, `Load` returns the empty
certificate with that error, and the pairing result is not used. -/
theorem Load_decrypt_error (env : LoadEnv) (certFile keyFile password : GoString)
    (certPEMBlock rawKeyPEMBlock : List Byte) (temp : pem.Block) (err : Error)
    (hcert : env.ReadFile certFile = Except.ok certPEMBlock)
    (hkey : env.ReadFile keyFile = Except.ok rawKeyPEMBlock)
    (hdecode : env.Decode rawKeyPEMBlock = some temp)
    (hdecrypt : env.DecryptPEMBlock temp password = Except.error err) :
    (err.msg = lit "unsupported encrypted PEM" →
        Load env certFile keyFile password =
          LoadResult.returned (env.X509KeyPair certPEMBlock rawKeyPEMBlock).1
            (env.X509KeyPair certPEMBlock rawKeyPEMBlock).2) ∧
      (err.msg ≠ lit "unsupported encrypted PEM" →
        Load env certFile keyFile password =
          LoadResult.returned tls.Certificate.zero (some err)) := by
  constructor
  · intro hmsg
    simp only [Load, hcert, hkey, hdecode, hdecrypt, hmsg, if_true]
  · intro hmsg
    simp only [Load, hcert, hkey, hdecode, hdecrypt, hmsg, if_false]

/-- Witness of C7: the plaintext key `plain.key` is loaded through the fallback under
any password, here `whatever`; the encrypted key `enc.key` under the wrong password
`guess` yields the decryption error. -/
theorem Load_decrypt_error_witness :
    Load exampleLoadEnv (lit "cert.pem") (lit "plain.key") (lit "whatever") =
        LoadResult.returned ⟨[lit "CERT DER"], some (lit "KEY DER")⟩ none ∧
      Load exampleLoadEnv (lit "cert.pem") (lit "enc.key") (lit "guess") =
        LoadResult.returned tls.Certificate.zero
          (some ⟨lit "x509: decryption password incorrect"⟩) :=
  ⟨(Load_decrypt_error exampleLoadEnv (lit "cert.pem") (lit "plain.key") (lit "whatever")
      (lit "CERT PEM") (lit "PLAIN KEY PEM") ⟨lit "RSA PRIVATE KEY", [], lit "KEY DER"⟩
      ⟨lit "unsupported encrypted PEM"⟩ rfl rfl rfl rfl).1 rfl,
    (Load_decrypt_error exampleLoadEnv (lit "cert.pem") (lit "enc.key") (lit "guess")
      (lit "CERT PEM") (lit "ENCRYPTED KEY PEM")
      ⟨lit "RSA PRIVATE KEY", [(lit "Proc-Type", lit "4,ENCRYPTED")], lit "CIPHERTEXT"⟩
      ⟨lit "x509: decryption password incorrect"⟩ rfl rfl rfl rfl).2 (by decide)⟩

/-- C8 (what the code does): when decryption succeeds, `Load` pairs the certificate
bytes with the bytes `pemutil.DecryptPEMBlock` returned, as they are: the decrypted DER
encoding is handed to `tls.X509KeyPair`, which reads its key argument as PEM text, and
the result of `Load` is whatever that call returns. Hence, whenever the pairing fails on
key input in which `pem.Decode` finds no block, and the decrypted bytes are such input,
`Load` returns an error although the password was the correct one. -/
theorem Load_pairs_decrypted_bytes (env : LoadEnv) (certFile keyFile password : GoString)
    (certPEMBlock rawKeyPEMBlock decrypted : List Byte) (temp : pem.Block)
    (hcert : env.ReadFile certFile = Except.ok certPEMBlock)
    (hkey : env.ReadFile keyFile = Except.ok rawKeyPEMBlock)
    (hdecode : env.Decode rawKeyPEMBlock = some temp)
    (hdecrypt : env.DecryptPEMBlock temp password = Except.ok decrypted) :
    Load env certFile keyFile password =
        LoadResult.returned (env.X509KeyPair certPEMBlock decrypted).1
          (env.X509KeyPair certPEMBlock decrypted).2 ∧
      ((∀ cert key, env.Decode key = none → (env.X509KeyPair cert key).2 ≠ none) →
        env.Decode decrypted = none →
        ∀ crt, Load env certFile keyFile password ≠ LoadResult.returned crt none) := by
  have h : Load env certFile keyFile password =
      LoadResult.returned (env.X509KeyPair certPEMBlock decrypted).1
        (env.X509KeyPair certPEMBlock decrypted).2 := by
    simp only [Load, hcert, hkey, hdecode, hdecrypt]
  refine ⟨h, ?_⟩
  intro hpair hder crt hret
  rw [h] at hret
  injection hret with _ herr
  exact hpair certPEMBlock decrypted hder herr

/-- Witness of C8 (what the code does): with the correct password `secret`, the
encrypted key `enc.key` decrypts to DER bytes, the pairing finds no PEM data in them,
and `Load` returns that error. -/
theorem Load_pairs_decrypted_bytes_witness :
    exampleLoadEnv.DecryptPEMBlock
        ⟨lit "RSA PRIVATE KEY", [(lit "Proc-Type", lit "4,ENCRYPTED")], lit "CIPHERTEXT"⟩
        (lit "secret") = Except.ok (lit "KEY DER") ∧
      Load exampleLoadEnv (lit "cert.pem") (lit "enc.key") (lit "secret") =
        LoadResult.returned tls.Certificate.zero
          (some ⟨lit "tls: failed to find any PEM data in key input"⟩) :=
  ⟨rfl,
    (Load_pairs_decrypted_bytes exampleLoadEnv (lit "cert.pem") (lit "enc.key") (lit "secret")
      (lit "CERT PEM") (lit "ENCRYPTED KEY PEM") (lit "KEY DER")
      ⟨lit "RSA PRIVATE KEY", [(lit "Proc-Type", lit "4,ENCRYPTED")], lit "CIPHERTEXT"⟩
      rfl rfl rfl rfl).1⟩

/-- C10 (what the code does): when both files are read and no PEM block is found in
the key file, `Load` hands the nil block to the decryption step and ends in a nil
pointer dereference; it returns neither a result nor an error. -/
theorem Load_nil_block_panics (env : LoadEnv) (certFile keyFile password : GoString)
    (certPEMBlock rawKeyPEMBlock : List Byte)
    (hcert : env.ReadFile certFile = Except.ok certPEMBlock)
    (hkey : env.ReadFile keyFile = Except.ok rawKeyPEMBlock)
    (hdecode : env.Decode rawKeyPEMBlock = none) :
    Load env certFile keyFile password = LoadResult.panicked ∧
      ∀ crt err, Load env certFile keyFile password ≠ LoadResult.returned crt err := by
  have h : Load env certFile keyFile password = LoadResult.panicked := by
    simp only [Load, hcert, hkey, hdecode]
  rw [h]
  exact ⟨rfl, fun crt err hne => by cases hne⟩

/-- Witness of C10 (what the code does): the empty key file `empty.key` makes `Load`
panic. -/
theorem Load_nil_block_panics_witness :
    exampleLoadEnv.Decode [] = none ∧
      Load exampleLoadEnv (lit "cert.pem") (lit "empty.key") (lit "secret") =
        LoadResult.panicked :=
  ⟨rfl,
    (Load_nil_block_panics exampleLoadEnv (lit "cert.pem") (lit "empty.key") (lit "secret")
      (lit "CERT PEM") [] rfl rfl rfl).1⟩

end microauth
